import Mathlib

/-!
Verification of the fitai image-fitting scripts.

The repository holds two Python scripts, `convert_feature_graphic.py` and
`convert_screenshots.py`.  Each one letterboxes a source image into a fixed
target canvas: it computes a uniform scale factor, truncates the scaled
dimensions to integers, and pastes the resized image centered on a
solid-color background.  `convert_screenshots.py` additionally batch-runs a
directory of files.

Modelling conventions:
* Python float arithmetic on the sizes is modelled by exact rational
  arithmetic over `ℚ` (the specification states the formulas over real
  numbers).
* Python `int(x)` truncates toward zero; it is modelled by `pyInt`.
* Python `//` on integers is floor division; it is modelled by `Int.fdiv`.
* Pixel buffers are modelled as total functions from integer coordinates to
  RGB triples together with a width and a height.
* The PIL resampling filter (`Image.resize` with LANCZOS) is an external
  library routine; the conversion pipeline is parameterised by an arbitrary
  `resize` function of the same shape.
* The points where the Python code can raise are made explicit with an
  `Except` result: `Image.open` raising on an unreadable file, `Image.new`
  rejecting a negative canvas dimension, `Image.resize` rejecting a
  non-positive requested dimension, and the `ZeroDivisionError` raised by
  the scale computation on a zero source dimension.
-/

namespace FitAI

/-- Python `int()` applied to a rational: truncation toward zero
(`Int.tdiv` is the toward-zero division and `q.den` is positive). -/
def pyInt (q : ℚ) : ℤ := q.num.tdiv q.den

/-- An RGB color triple. -/
abbrev Color := ℤ × ℤ × ℤ

/-- The hard-coded dark background color `(23, 20, 41)` used by both
scripts. -/
def bgColor : Color := (23, 20, 41)

/-- An image: a width, a height, and a pixel function (modelled total on
`ℤ × ℤ`; only the coordinates `0 ≤ a < width`, `0 ≤ b < height` are
meaningful). -/
structure Img where
  width : ℤ
  height : ℤ
  pix : ℤ → ℤ → Color

/-- The derived values of the fit-and-center computation: scale factor,
truncated scaled dimensions, and the centering offset. -/
@[ext]
structure FitResult where
  scale : ℚ
  newWidth : ℤ
  newHeight : ℤ
  x : ℤ
  y : ℤ

/-- The fit computation of `convert_feature_graphic.py` lines 22-31:
`scale = min(target_width / img_width, target_height / img_height)`,
`new_width = int(img_width * scale)`, `new_height = int(img_height * scale)`,
`x = (target_width - new_width) // 2`, `y = (target_height - new_height) // 2`. -/
def featureFit (imgWidth imgHeight targetWidth targetHeight : ℤ) : FitResult :=
  let scale : ℚ := min ((targetWidth : ℚ) / (imgWidth : ℚ))
                       ((targetHeight : ℚ) / (imgHeight : ℚ))
  let newWidth := pyInt ((imgWidth : ℚ) * scale)
  let newHeight := pyInt ((imgHeight : ℚ) * scale)
  { scale := scale
    newWidth := newWidth
    newHeight := newHeight
    x := Int.fdiv (targetWidth - newWidth) 2
    y := Int.fdiv (targetHeight - newHeight) 2 }

/-- The fit computation of `convert_screenshots.py` lines 22-31:
`scale = min(target_width * 0.8 / img_width, target_height * 0.9 / img_height)`
with the remaining lines identical to the feature-graphic script.  The float
literals `0.8` and `0.9` are modelled by the exact rationals `8/10` and
`9/10`. -/
def tabletFit (imgWidth imgHeight targetWidth targetHeight : ℤ) : FitResult :=
  let scale : ℚ := min ((targetWidth : ℚ) * (8 / 10) / (imgWidth : ℚ))
                       ((targetHeight : ℚ) * (9 / 10) / (imgHeight : ℚ))
  let newWidth := pyInt ((imgWidth : ℚ) * scale)
  let newHeight := pyInt ((imgHeight : ℚ) * scale)
  { scale := scale
    newWidth := newWidth
    newHeight := newHeight
    x := Int.fdiv (targetWidth - newWidth) 2
    y := Int.fdiv (targetHeight - newHeight) 2 }

/-- Modelled from the spec: the fit computation of `fitToCanvas` (spec
section 4.1) with explicit fill-fraction multipliers
`scale = min(targetWidth * fillX / srcWidth, targetHeight * fillY / srcHeight)`,
integer-truncated scaled dimensions, and floor-division centering offsets.
This is the generic formula the spec states; the two scripts are compared
against it. -/
def specFit (imgWidth imgHeight targetWidth targetHeight : ℤ)
    (fillX fillY : ℚ) : FitResult :=
  let scale : ℚ := min ((targetWidth : ℚ) * fillX / (imgWidth : ℚ))
                       ((targetHeight : ℚ) * fillY / (imgHeight : ℚ))
  let newWidth := pyInt ((imgWidth : ℚ) * scale)
  let newHeight := pyInt ((imgHeight : ℚ) * scale)
  { scale := scale
    newWidth := newWidth
    newHeight := newHeight
    x := Int.fdiv (targetWidth - newWidth) 2
    y := Int.fdiv (targetHeight - newHeight) 2 }

/-! ### The conversion pipeline -/

/-- The points where the Python conversion can raise:
`decodeFailure` is `Image.open` raising on an unreadable or corrupt file;
`newInvalid` is `Image.new` rejecting a negative canvas dimension;
`zeroDivision` is the `ZeroDivisionError` raised by
`target / img_dimension` when a source dimension is zero;
`resizeInvalid` is `Image.resize` rejecting a non-positive requested
dimension (the library checks `xsize < 1 || ysize < 1` and raises
ValueError: height and width must be > 0).
The scripts define no error taxonomy of their own; these are the raw raise
sites, surfaced to the caller unhandled. -/
inductive PyError where
  | decodeFailure
  | newInvalid
  | zeroDivision
  | resizeInvalid
deriving DecidableEq

/-- `Image.new` with mode RGB: a `w × h` image uniformly filled with the
color `c`. -/
def newImage (w h : ℤ) (c : Color) : Img :=
  { width := w, height := h, pix := fun _ _ => c }

/-- `canvas.paste(src, (x, y))`: opaque overwrite of the `src.width ×
src.height` block at offset `(x, y)`; the canvas keeps its own
dimensions. -/
def pasteImage (canvas src : Img) (x y : ℤ) : Img :=
  { width := canvas.width
    height := canvas.height
    pix := fun a b =>
      if x ≤ a ∧ a < x + src.width ∧ y ≤ b ∧ b < y + src.height then
        src.pix (a - x) (b - y)
      else canvas.pix a b }

/-- `convert_feature_graphic(input_path, output_path, target_width,
target_height)` as a pure transform (the spec treats writing to storage as a
separate collaborator).  `source = none` models `Image.open` raising;
`resize` is the PIL resampling routine, passed in as a parameter.  The RGB
mode normalization does not change geometry or the modelled pixel content.
The guards mirror, in source order, the places the Python code can raise:
`Image.new` on line 19 (negative canvas dimension; zero is accepted), the
scale computation on line 22 (division by a zero source dimension), and
`img.resize` on line 27 (non-positive requested dimension). -/
def convert_feature_graphic (resize : Img → ℤ → ℤ → Img) (source : Option Img)
    (targetWidth targetHeight : ℤ) : Except PyError Img :=
  match source with
  | none => .error .decodeFailure
  | some img =>
    if targetWidth < 0 ∨ targetHeight < 0 then .error .newInvalid
    else if img.width = 0 ∨ img.height = 0 then .error .zeroDivision
    else
      let r := featureFit img.width img.height targetWidth targetHeight
      if r.newWidth < 1 ∨ r.newHeight < 1 then .error .resizeInvalid
      else
        .ok (pasteImage (newImage targetWidth targetHeight bgColor)
          (resize img r.newWidth r.newHeight) r.x r.y)

/-- `create_tablet_screenshot(input_path, output_path, target_width,
target_height)` as a pure transform, identical to
`convert_feature_graphic` except for the fill fractions in the scale
computation. -/
def create_tablet_screenshot (resize : Img → ℤ → ℤ → Img) (source : Option Img)
    (targetWidth targetHeight : ℤ) : Except PyError Img :=
  match source with
  | none => .error .decodeFailure
  | some img =>
    if targetWidth < 0 ∨ targetHeight < 0 then .error .newInvalid
    else if img.width = 0 ∨ img.height = 0 then .error .zeroDivision
    else
      let r := tabletFit img.width img.height targetWidth targetHeight
      if r.newWidth < 1 ∨ r.newHeight < 1 then .error .resizeInvalid
      else
        .ok (pasteImage (newImage targetWidth targetHeight bgColor)
          (resize img r.newWidth r.newHeight) r.x r.y)

/-- A concrete resampling function used to instantiate the pipeline at
specific inputs: it returns an image of exactly the requested size (the
PIL `resize` contract). -/
def constResize (img : Img) (w h : ℤ) : Img :=
  { width := w, height := h, pix := fun _ _ => img.pix 0 0 }

/-! ### The batch runner of `convert_screenshots.py` -/

/-- ASCII lower-casing of one character, as `str.lower()` acts on the ASCII
range (the extensions being matched are ASCII). -/
def lowerChar (c : Char) : Char :=
  if 'A' ≤ c ∧ c ≤ 'Z' then Char.ofNat (c.toNat + 32) else c

/-- `filename.lower()` on a filename modelled as a list of characters. -/
def lowerName (s : List Char) : List Char := s.map lowerChar

/-- The extension filter of `convert_screenshots.py` line 48: the
lower-cased filename ends with `.png`, `.jpg` or `.jpeg`. -/
def hasImageExtension (name : List Char) : Bool :=
  List.isSuffixOf ['.', 'p', 'n', 'g'] (lowerName name) ||
    List.isSuffixOf ['.', 'j', 'p', 'g'] (lowerName name) ||
    List.isSuffixOf ['.', 'j', 'p', 'e', 'g'] (lowerName name)

/-- `filename.rsplit(".", 1)[0]`: everything before the last dot, or the
whole name when there is no dot. -/
def stemName (s : List Char) : List Char :=
  if '.' ∈ s then ((s.reverse.dropWhile (fun c => c ≠ '.')).drop 1).reverse
  else s

/-- The output filename built on `convert_screenshots.py` line 50: the
literal `tablet_`, then the stem of the input filename, then `.png`. -/
def outputName (name : List Char) : List Char :=
  ['t', 'a', 'b', 'l', 'e', 't', '_'] ++ stemName name ++ ['.', 'p', 'n', 'g']

/-- One directory entry seen by the batch runner: its filename and what
`Image.open` yields on it (`none`: the file cannot be decoded, so the
conversion raises inside the `try` block). -/
structure FileEntry where
  name : List Char
  source : Option Img

/-- `process_screenshots(input_folder, output_folder)` from
`convert_screenshots.py` lines 47-57: iterate the directory listing, filter
by extension, convert each matching file inside a `try` block at the default
1920×1080 target, collect written outputs (first component) and logged
per-file errors (second component).  A failed file is logged and the loop
continues. -/
def process_screenshots (resize : Img → ℤ → ℤ → Img) :
    List FileEntry → List (List Char × Img) × List (List Char)
  | [] => ([], [])
  | f :: rest =>
    if hasImageExtension f.name then
      match create_tablet_screenshot resize f.source 1920 1080 with
      | .ok out =>
        let r := process_screenshots resize rest
        ((outputName f.name, out) :: r.1, r.2)
      | .error _ =>
        let r := process_screenshots resize rest
        (r.1, f.name :: r.2)
    else process_screenshots resize rest

/-- A solid one-color test image of the given size, used to instantiate
theorems at concrete inputs. -/
def solidImg (w h : ℤ) : Img :=
  { width := w, height := h, pix := fun _ _ => (1, 2, 3) }

/-- Concrete directory entry `a.png`, decodable. -/
def fileA : FileEntry := { name := ['a', '.', 'p', 'n', 'g'], source := some (solidImg 4 2) }

/-- Concrete directory entry `b.png`, corrupt (cannot be decoded). -/
def fileB : FileEntry := { name := ['b', '.', 'p', 'n', 'g'], source := none }

/-- Concrete directory entry `c.jpg`, decodable. -/
def fileC : FileEntry := { name := ['c', '.', 'j', 'p', 'g'], source := some (solidImg 4 2) }

/-! ## Helper lemmas -/

/-! ### Basic facts about `pyInt` -/

theorem pyInt_eq_floor {q : ℚ} (h : 0 ≤ q) : pyInt q = ⌊q⌋ := by
  rw [pyInt, Int.tdiv_eq_ediv (Rat.num_nonneg.2 h) (Int.natCast_nonneg _),
    Rat.floor_def]

theorem pyInt_nonneg {q : ℚ} (h : 0 ≤ q) : 0 ≤ pyInt q := by
  rw [pyInt_eq_floor h]
  exact Int.floor_nonneg.2 h

theorem pyInt_le {q : ℚ} (h : 0 ≤ q) : (pyInt q : ℚ) ≤ q := by
  rw [pyInt_eq_floor h]
  exact Int.floor_le q

theorem sub_one_lt_pyInt {q : ℚ} (h : 0 ≤ q) : q - 1 < (pyInt q : ℚ) := by
  rw [pyInt_eq_floor h]
  exact Int.sub_one_lt_floor q

theorem pyInt_intCast (n : ℤ) : pyInt (n : ℚ) = n := by
  unfold pyInt
  rw [Rat.num_intCast, Rat.den_intCast]
  exact Int.tdiv_one n

theorem pyInt_eq_of {n : ℤ} {q : ℚ} (h0 : 0 ≤ q) (h1 : (n : ℚ) ≤ q)
    (h2 : q < (n : ℚ) + 1) : pyInt q = n := by
  rw [pyInt_eq_floor h0]
  exact Int.floor_eq_iff.2 ⟨h1, by exact_mod_cast h2⟩

/-! ### The two scripts compute instances of the generic formula -/

theorem featureFit_eq_specFit (w h tw th : ℤ) :
    featureFit w h tw th = specFit w h tw th 1 1 := by
  simp [featureFit, specFit]

theorem tabletFit_eq_specFit (w h tw th : ℤ) :
    tabletFit w h tw th = specFit w h tw th (8 / 10) (9 / 10) := by
  simp [tabletFit, specFit]

/-! ### Generic bounds on the fit computation -/

theorem specFit_scale_nonneg {w h tw th : ℤ} {fx fy : ℚ} (hw : 0 < w)
    (hh : 0 < h) (hfx : 0 ≤ (tw : ℚ) * fx) (hfy : 0 ≤ (th : ℚ) * fy) :
    0 ≤ (specFit w h tw th fx fy).scale := by
  have hw' : (0 : ℚ) ≤ (w : ℚ) := by exact_mod_cast hw.le
  have hh' : (0 : ℚ) ≤ (h : ℚ) := by exact_mod_cast hh.le
  exact le_min (div_nonneg hfx hw') (div_nonneg hfy hh')

theorem specFit_newWidth_nonneg {w h tw th : ℤ} {fx fy : ℚ} (hw : 0 < w)
    (hh : 0 < h) (hfx : 0 ≤ (tw : ℚ) * fx) (hfy : 0 ≤ (th : ℚ) * fy) :
    0 ≤ (specFit w h tw th fx fy).newWidth := by
  have hs := specFit_scale_nonneg hw hh hfx hfy
  have hw' : (0 : ℚ) ≤ (w : ℚ) := by exact_mod_cast hw.le
  exact pyInt_nonneg (mul_nonneg hw' hs)

theorem specFit_newHeight_nonneg {w h tw th : ℤ} {fx fy : ℚ} (hw : 0 < w)
    (hh : 0 < h) (hfx : 0 ≤ (tw : ℚ) * fx) (hfy : 0 ≤ (th : ℚ) * fy) :
    0 ≤ (specFit w h tw th fx fy).newHeight := by
  have hs := specFit_scale_nonneg hw hh hfx hfy
  have hh' : (0 : ℚ) ≤ (h : ℚ) := by exact_mod_cast hh.le
  exact pyInt_nonneg (mul_nonneg hh' hs)

theorem specFit_newWidth_le {w h tw th : ℤ} {fx fy : ℚ} (hw : 0 < w)
    (hh : 0 < h) (hfx : 0 ≤ (tw : ℚ) * fx) (hfy : 0 ≤ (th : ℚ) * fy) :
    ((specFit w h tw th fx fy).newWidth : ℚ) ≤ (tw : ℚ) * fx := by
  have hw' : (0 : ℚ) < (w : ℚ) := by exact_mod_cast hw
  have hs := specFit_scale_nonneg hw hh hfx hfy
  have hb : (w : ℚ) * (specFit w h tw th fx fy).scale ≤ (tw : ℚ) * fx := by
    have h1 : (specFit w h tw th fx fy).scale ≤ (tw : ℚ) * fx / w :=
      min_le_left _ _
    calc (w : ℚ) * (specFit w h tw th fx fy).scale
        ≤ (w : ℚ) * ((tw : ℚ) * fx / w) :=
          mul_le_mul_of_nonneg_left h1 hw'.le
      _ = (tw : ℚ) * fx := by rw [mul_comm, div_mul_cancel₀ _ hw'.ne']
  exact le_trans (pyInt_le (mul_nonneg hw'.le hs)) hb

theorem specFit_newHeight_le {w h tw th : ℤ} {fx fy : ℚ} (hw : 0 < w)
    (hh : 0 < h) (hfx : 0 ≤ (tw : ℚ) * fx) (hfy : 0 ≤ (th : ℚ) * fy) :
    ((specFit w h tw th fx fy).newHeight : ℚ) ≤ (th : ℚ) * fy := by
  have hh' : (0 : ℚ) < (h : ℚ) := by exact_mod_cast hh
  have hs := specFit_scale_nonneg hw hh hfx hfy
  have hb : (h : ℚ) * (specFit w h tw th fx fy).scale ≤ (th : ℚ) * fy := by
    have h1 : (specFit w h tw th fx fy).scale ≤ (th : ℚ) * fy / h :=
      min_le_right _ _
    calc (h : ℚ) * (specFit w h tw th fx fy).scale
        ≤ (h : ℚ) * ((th : ℚ) * fy / h) :=
          mul_le_mul_of_nonneg_left h1 hh'.le
      _ = (th : ℚ) * fy := by rw [mul_comm, div_mul_cancel₀ _ hh'.ne']
  exact le_trans (pyInt_le (mul_nonneg hh'.le hs)) hb

/-- The limiting dimension: the scale is one of the two ratios, and on that
side the scaled dimension is the truncation of its bound, hence within one
unit of it. -/
theorem specFit_touch {w h tw th : ℤ} {fx fy : ℚ} (hw : 0 < w) (hh : 0 < h)
    (hfx : 0 ≤ (tw : ℚ) * fx) (hfy : 0 ≤ (th : ℚ) * fy) :
    (tw : ℚ) * fx - 1 < ((specFit w h tw th fx fy).newWidth : ℚ) ∨
      (th : ℚ) * fy - 1 < ((specFit w h tw th fx fy).newHeight : ℚ) := by
  have hw' : (0 : ℚ) < (w : ℚ) := by exact_mod_cast hw
  have hh' : (0 : ℚ) < (h : ℚ) := by exact_mod_cast hh
  rcases min_choice ((tw : ℚ) * fx / w) ((th : ℚ) * fy / h) with hmin | hmin
  · left
    have hkey : (w : ℚ) * (specFit w h tw th fx fy).scale = (tw : ℚ) * fx := by
      show (w : ℚ) * min ((tw : ℚ) * fx / w) ((th : ℚ) * fy / h) = _
      rw [hmin, mul_comm, div_mul_cancel₀ _ hw'.ne']
    have : (specFit w h tw th fx fy).newWidth = pyInt ((tw : ℚ) * fx) := by
      show pyInt ((w : ℚ) * (specFit w h tw th fx fy).scale) = _
      rw [hkey]
    rw [this]
    exact sub_one_lt_pyInt hfx
  · right
    have hkey : (h : ℚ) * (specFit w h tw th fx fy).scale = (th : ℚ) * fy := by
      show (h : ℚ) * min ((tw : ℚ) * fx / w) ((th : ℚ) * fy / h) = _
      rw [hmin, mul_comm, div_mul_cancel₀ _ hh'.ne']
    have : (specFit w h tw th fx fy).newHeight = pyInt ((th : ℚ) * fy) := by
      show pyInt ((h : ℚ) * (specFit w h tw th fx fy).scale) = _
      rw [hkey]
    rw [this]
    exact sub_one_lt_pyInt hfy

/-- When the two bounds are integers, the limiting dimension reaches its
bound exactly (truncation of an integer is that integer). -/
theorem specFit_touch_exact {w h tw th mw mh : ℤ} {fx fy : ℚ} (hw : 0 < w)
    (hh : 0 < h) (hmw : (tw : ℚ) * fx = (mw : ℚ))
    (hmh : (th : ℚ) * fy = (mh : ℚ)) :
    (specFit w h tw th fx fy).newWidth = mw ∨
      (specFit w h tw th fx fy).newHeight = mh := by
  have hw' : (0 : ℚ) < (w : ℚ) := by exact_mod_cast hw
  have hh' : (0 : ℚ) < (h : ℚ) := by exact_mod_cast hh
  rcases min_choice ((tw : ℚ) * fx / w) ((th : ℚ) * fy / h) with hmin | hmin
  · left
    have hkey : (w : ℚ) * (specFit w h tw th fx fy).scale = (mw : ℚ) := by
      show (w : ℚ) * min ((tw : ℚ) * fx / w) ((th : ℚ) * fy / h) = _
      rw [hmin, mul_comm, div_mul_cancel₀ _ hw'.ne', hmw]
    show pyInt ((w : ℚ) * (specFit w h tw th fx fy).scale) = _
    rw [hkey, pyInt_intCast]
  · right
    have hkey : (h : ℚ) * (specFit w h tw th fx fy).scale = (mh : ℚ) := by
      show (h : ℚ) * min ((tw : ℚ) * fx / w) ((th : ℚ) * fy / h) = _
      rw [hmin, mul_comm, div_mul_cancel₀ _ hh'.ne', hmh]
    show pyInt ((h : ℚ) * (specFit w h tw th fx fy).scale) = _
    rw [hkey, pyInt_intCast]

/-- With a positive source, nonnegative targets and positive truncated
scaled dimensions, the feature-graphic conversion takes the success path:
every guard is passed and the result is the paste of the resized image on
the fresh canvas. -/
theorem convert_feature_graphic_ok (resize : Img → ℤ → ℤ → Img) (img : Img)
    (tw th : ℤ) (hw : 0 < img.width) (hh : 0 < img.height)
    (htw : 0 ≤ tw) (hth : 0 ≤ th)
    (hnw : 0 < (featureFit img.width img.height tw th).newWidth)
    (hnh : 0 < (featureFit img.width img.height tw th).newHeight) :
    convert_feature_graphic resize (some img) tw th =
      .ok (pasteImage (newImage tw th bgColor)
        (resize img (featureFit img.width img.height tw th).newWidth
          (featureFit img.width img.height tw th).newHeight)
        (featureFit img.width img.height tw th).x
        (featureFit img.width img.height tw th).y) := by
  simp only [convert_feature_graphic]
  rw [if_neg (by omega), if_neg (by omega), if_neg (by omega)]

/-- With a positive source, nonnegative targets and positive truncated
scaled dimensions, the tablet conversion takes the success path. -/
theorem create_tablet_screenshot_ok (resize : Img → ℤ → ℤ → Img) (img : Img)
    (tw th : ℤ) (hw : 0 < img.width) (hh : 0 < img.height)
    (htw : 0 ≤ tw) (hth : 0 ≤ th)
    (hnw : 0 < (tabletFit img.width img.height tw th).newWidth)
    (hnh : 0 < (tabletFit img.width img.height tw th).newHeight) :
    create_tablet_screenshot resize (some img) tw th =
      .ok (pasteImage (newImage tw th bgColor)
        (resize img (tabletFit img.width img.height tw th).newWidth
          (tabletFit img.width img.height tw th).newHeight)
        (tabletFit img.width img.height tw th).x
        (tabletFit img.width img.height tw th).y) := by
  simp only [create_tablet_screenshot]
  rw [if_neg (by omega), if_neg (by omega), if_neg (by omega)]

/-- When the source fits strictly inside the fill region, the scale is
strictly greater than one and both scaled dimensions are at least the
source dimensions. -/
theorem specFit_upscale {w h tw th : ℤ} {fx fy : ℚ} (hw : 0 < w) (hh : 0 < h)
    (h1 : (w : ℚ) < (tw : ℚ) * fx) (h2 : (h : ℚ) < (th : ℚ) * fy) :
    1 < (specFit w h tw th fx fy).scale ∧
      w ≤ (specFit w h tw th fx fy).newWidth ∧
      h ≤ (specFit w h tw th fx fy).newHeight := by
  have hw' : (0 : ℚ) < (w : ℚ) := by exact_mod_cast hw
  have hh' : (0 : ℚ) < (h : ℚ) := by exact_mod_cast hh
  have hsc : 1 < (specFit w h tw th fx fy).scale := by
    show 1 < min ((tw : ℚ) * fx / w) ((th : ℚ) * fy / h)
    exact lt_min ((one_lt_div hw').2 h1) ((one_lt_div hh').2 h2)
  refine ⟨hsc, ?_, ?_⟩
  · have hnn : (0 : ℚ) ≤ (w : ℚ) * (specFit w h tw th fx fy).scale :=
      mul_nonneg hw'.le (by linarith)
    show w ≤ pyInt ((w : ℚ) * (specFit w h tw th fx fy).scale)
    rw [pyInt_eq_floor hnn]
    exact Int.le_floor.2 (le_mul_of_one_le_right hw'.le hsc.le)
  · have hnn : (0 : ℚ) ≤ (h : ℚ) * (specFit w h tw th fx fy).scale :=
      mul_nonneg hh'.le (by linarith)
    show h ≤ pyInt ((h : ℚ) * (specFit w h tw th fx fy).scale)
    rw [pyInt_eq_floor hnn]
    exact Int.le_floor.2 (le_mul_of_one_le_right hh'.le hsc.le)

/-- With a positive source and nonnegative targets, the feature-graphic
conversion fails at the resize call whenever a truncated scaled dimension
is below 1 (the library rejects non-positive sizes). -/
theorem convert_feature_graphic_resize_rejects (resize : Img → ℤ → ℤ → Img)
    (img : Img) (tw th : ℤ) (hw : 0 < img.width) (hh : 0 < img.height)
    (htw : 0 ≤ tw) (hth : 0 ≤ th)
    (hcond : (featureFit img.width img.height tw th).newWidth < 1 ∨
      (featureFit img.width img.height tw th).newHeight < 1) :
    convert_feature_graphic resize (some img) tw th
      = .error .resizeInvalid := by
  simp only [convert_feature_graphic]
  rw [if_neg (by omega), if_neg (by omega), if_pos hcond]

/-- With a positive source and nonnegative targets, the tablet conversion
fails at the resize call whenever a truncated scaled dimension is below
1. -/
theorem create_tablet_screenshot_resize_rejects (resize : Img → ℤ → ℤ → Img)
    (img : Img) (tw th : ℤ) (hw : 0 < img.width) (hh : 0 < img.height)
    (htw : 0 ≤ tw) (hth : 0 ≤ th)
    (hcond : (tabletFit img.width img.height tw th).newWidth < 1 ∨
      (tabletFit img.width img.height tw th).newHeight < 1) :
    create_tablet_screenshot resize (some img) tw th
      = .error .resizeInvalid := by
  simp only [create_tablet_screenshot]
  rw [if_neg (by omega), if_neg (by omega), if_pos hcond]

/-- When one of the fill bounds is zero (a zero target dimension), the
scale is zero, so the truncated scaled width is zero. -/
theorem specFit_newWidth_zero {w h tw th : ℤ} {fx fy : ℚ} (hw : 0 < w)
    (hh : 0 < h) (hfx : 0 ≤ (tw : ℚ) * fx) (hfy : 0 ≤ (th : ℚ) * fy)
    (h0 : (tw : ℚ) * fx = 0 ∨ (th : ℚ) * fy = 0) :
    (specFit w h tw th fx fy).newWidth = 0 := by
  have hw' : (0 : ℚ) < (w : ℚ) := by exact_mod_cast hw
  have hh' : (0 : ℚ) < (h : ℚ) := by exact_mod_cast hh
  have hs0 : (specFit w h tw th fx fy).scale = 0 := by
    have hnn := specFit_scale_nonneg hw hh hfx hfy
    have hle : (specFit w h tw th fx fy).scale ≤ 0 := by
      rcases h0 with h0 | h0
      · have h1 : (tw : ℚ) * fx / w = 0 := by rw [h0, zero_div]
        calc (specFit w h tw th fx fy).scale
            ≤ (tw : ℚ) * fx / w := min_le_left _ _
          _ = 0 := h1
      · have h1 : (th : ℚ) * fy / h = 0 := by rw [h0, zero_div]
        calc (specFit w h tw th fx fy).scale
            ≤ (th : ℚ) * fy / h := min_le_right _ _
          _ = 0 := h1
    exact le_antisymm hle hnn
  show pyInt ((w : ℚ) * (specFit w h tw th fx fy).scale) = 0
  rw [hs0, mul_zero]
  rfl

/-- Concrete evaluation: the 4×2 test image fitted into 1920×1080 by the
feature-graphic computation. -/
theorem featureFit_small :
    featureFit 4 2 1920 1080 = ⟨480, 1920, 960, 0, 60⟩ := by
  have hmin : min (((1920 : ℤ) : ℚ) / ((4 : ℤ) : ℚ))
      (((1080 : ℤ) : ℚ) / ((2 : ℤ) : ℚ)) = 480 := by
    norm_num [min_def]
  have h1 : pyInt (((4 : ℤ) : ℚ) * 480) = 1920 :=
    pyInt_eq_of (by norm_num) (by norm_num) (by norm_num)
  have h2 : pyInt (((2 : ℤ) : ℚ) * 480) = 960 :=
    pyInt_eq_of (by norm_num) (by norm_num) (by norm_num)
  simp only [featureFit, hmin, h1, h2]
  exact FitResult.ext rfl rfl rfl rfl rfl

/-- Concrete evaluation: the 4×2 test image fitted into 1920×1080 by the
tablet computation. -/
theorem tabletFit_small :
    tabletFit 4 2 1920 1080 = ⟨384, 1536, 768, 192, 156⟩ := by
  have hmin : min (((1920 : ℤ) : ℚ) * (8/10) / ((4 : ℤ) : ℚ))
      (((1080 : ℤ) : ℚ) * (9/10) / ((2 : ℤ) : ℚ)) = 384 := by
    norm_num [min_def]
  have h1 : pyInt (((4 : ℤ) : ℚ) * 384) = 1536 :=
    pyInt_eq_of (by norm_num) (by norm_num) (by norm_num)
  have h2 : pyInt (((2 : ℤ) : ℚ) * 384) = 768 :=
    pyInt_eq_of (by norm_num) (by norm_num) (by norm_num)
  simp only [tabletFit, hmin, h1, h2]
  exact FitResult.ext rfl rfl rfl rfl rfl

/-! ## The claims -/

/-- C1 counterexample: a positive 1×10000 source into the positive
1920×1080 tablet canvas truncates the scaled width to 0, so the conversion
fails at the resize call (the library rejects non-positive sizes) and
produces no output at all — the unconditional output-size guarantee fails
for this valid input. -/
theorem c1_counterexample :
    tabletFit 1 10000 1920 1080 = ⟨243/2500, 0, 972, 960, 54⟩ ∧
    create_tablet_screenshot constResize (some (solidImg 1 10000)) 1920 1080
      = .error .resizeInvalid := by
  have hmin : min (((1920 : ℤ) : ℚ) * (8/10) / ((1 : ℤ) : ℚ))
      (((1080 : ℤ) : ℚ) * (9/10) / ((10000 : ℤ) : ℚ)) = 243/2500 := by
    norm_num [min_def]
  have h1 : pyInt (((1 : ℤ) : ℚ) * (243/2500)) = 0 :=
    pyInt_eq_of (by norm_num) (by norm_num) (by norm_num)
  have h2 : pyInt (((10000 : ℤ) : ℚ) * (243/2500)) = 972 :=
    pyInt_eq_of (by norm_num) (by norm_num) (by norm_num)
  have hfit : tabletFit 1 10000 1920 1080 = ⟨243/2500, 0, 972, 960, 54⟩ := by
    simp only [tabletFit, hmin, h1, h2]
    exact FitResult.ext rfl rfl rfl rfl rfl
  refine ⟨hfit, ?_⟩
  exact create_tablet_screenshot_resize_rejects constResize (solidImg 1 10000)
    1920 1080 (by decide) (by decide) (by decide) (by decide)
    (Or.inl (by show (tabletFit 1 10000 1920 1080).newWidth < 1
                rw [hfit]; decide))

/-- C1 amended: whenever a conversion produces an output it has dimensions
exactly `(targetWidth, targetHeight)`, and the conversion does produce an
output whenever both truncated scaled dimensions are positive; extreme
aspect ratios can truncate a scaled dimension to 0, in which case the
resize call fails and there is no output. -/
theorem c1_output_dimensions (resize : Img → ℤ → ℤ → Img) (img : Img)
    (tw th : ℤ) (hw : 0 < img.width) (hh : 0 < img.height)
    (htw : 0 < tw) (hth : 0 < th) :
    (∀ out, convert_feature_graphic resize (some img) tw th = .ok out →
       out.width = tw ∧ out.height = th) ∧
    (∀ out, create_tablet_screenshot resize (some img) tw th = .ok out →
       out.width = tw ∧ out.height = th) ∧
    (0 < (featureFit img.width img.height tw th).newWidth →
     0 < (featureFit img.width img.height tw th).newHeight →
     ∃ out, convert_feature_graphic resize (some img) tw th = .ok out ∧
       out.width = tw ∧ out.height = th) ∧
    (0 < (tabletFit img.width img.height tw th).newWidth →
     0 < (tabletFit img.width img.height tw th).newHeight →
     ∃ out, create_tablet_screenshot resize (some img) tw th = .ok out ∧
       out.width = tw ∧ out.height = th) := by
  refine ⟨?_, ?_, ?_, ?_⟩
  · intro out hout
    simp only [convert_feature_graphic] at hout
    rw [if_neg (by omega), if_neg (by omega)] at hout
    by_cases h3 : (featureFit img.width img.height tw th).newWidth < 1 ∨
        (featureFit img.width img.height tw th).newHeight < 1
    · rw [if_pos h3] at hout
      exact absurd hout (by simp)
    · rw [if_neg h3] at hout
      injection hout with h4
      subst h4
      exact ⟨rfl, rfl⟩
  · intro out hout
    simp only [create_tablet_screenshot] at hout
    rw [if_neg (by omega), if_neg (by omega)] at hout
    by_cases h3 : (tabletFit img.width img.height tw th).newWidth < 1 ∨
        (tabletFit img.width img.height tw th).newHeight < 1
    · rw [if_pos h3] at hout
      exact absurd hout (by simp)
    · rw [if_neg h3] at hout
      injection hout with h4
      subst h4
      exact ⟨rfl, rfl⟩
  · intro hnw hnh
    exact ⟨_, convert_feature_graphic_ok resize img tw th hw hh
      htw.le hth.le hnw hnh, rfl, rfl⟩
  · intro hnw hnh
    exact ⟨_, create_tablet_screenshot_ok resize img tw th hw hh
      htw.le hth.le hnw hnh, rfl, rfl⟩

/-- Witness for C1 at a concrete input. -/
theorem c1_output_dimensions_witness :
    (∃ out, convert_feature_graphic constResize (some (solidImg 4 2)) 1920 1080
        = .ok out ∧ out.width = 1920 ∧ out.height = 1080) ∧
    (∃ out, create_tablet_screenshot constResize (some (solidImg 4 2)) 1920 1080
        = .ok out ∧ out.width = 1920 ∧ out.height = 1080) :=
  ⟨(c1_output_dimensions constResize (solidImg 4 2) 1920 1080
      (by decide) (by decide) (by decide) (by decide)).2.2.1
      (by simp [solidImg, featureFit_small]) (by simp [solidImg, featureFit_small]),
   (c1_output_dimensions constResize (solidImg 4 2) 1920 1080
      (by decide) (by decide) (by decide) (by decide)).2.2.2
      (by simp [solidImg, tabletFit_small]) (by simp [solidImg, tabletFit_small])⟩

/-- C2: both scripts compute the spec formula
`scale = min(targetWidth * fillX / srcWidth, targetHeight * fillY / srcHeight)`
together with the integer-truncated scaled dimensions, with
`fillX = fillY = 1` for the feature-graphic variant and `fillX = 0.8`,
`fillY = 0.9` for the tablet variant. -/
theorem c2_scale_formula (w h tw th : ℤ) :
    featureFit w h tw th = specFit w h tw th 1 1 ∧
      tabletFit w h tw th = specFit w h tw th (8 / 10) (9 / 10) :=
  ⟨featureFit_eq_specFit w h tw th, tabletFit_eq_specFit w h tw th⟩

/-- C8: the two worked examples of the spec, computed exactly: source 2000×1000
into 1024×500 at fill 1 gives scale 1/2, scaled size 1000×500 and offset
(12, 0); source 1080×2400 into 1920×1080 at fills 0.8/0.9 gives scale
81/200 = 0.405, scaled size 437×972 and offset (741, 54). -/
theorem c8_worked_examples :
    featureFit 2000 1000 1024 500 = ⟨1/2, 1000, 500, 12, 0⟩ ∧
      tabletFit 1080 2400 1920 1080 = ⟨81/200, 437, 972, 741, 54⟩ := by
  constructor
  · have hmin : min (((1024 : ℤ) : ℚ) / ((2000 : ℤ) : ℚ))
        (((500 : ℤ) : ℚ) / ((1000 : ℤ) : ℚ)) = 1/2 := by
      norm_num [min_def]
    have h1 : pyInt (((2000 : ℤ) : ℚ) * (1/2)) = 1000 :=
      pyInt_eq_of (by norm_num) (by norm_num) (by norm_num)
    have h2 : pyInt (((1000 : ℤ) : ℚ) * (1/2)) = 500 :=
      pyInt_eq_of (by norm_num) (by norm_num) (by norm_num)
    simp only [featureFit, hmin, h1, h2]
    exact FitResult.ext rfl rfl rfl rfl rfl
  · have hmin : min (((1920 : ℤ) : ℚ) * (8/10) / ((1080 : ℤ) : ℚ))
        (((1080 : ℤ) : ℚ) * (9/10) / ((2400 : ℤ) : ℚ)) = 81/200 := by
      norm_num [min_def]
    have h1 : pyInt (((1080 : ℤ) : ℚ) * (81/200)) = 437 :=
      pyInt_eq_of (by norm_num) (by norm_num) (by norm_num)
    have h2 : pyInt (((2400 : ℤ) : ℚ) * (81/200)) = 972 :=
      pyInt_eq_of (by norm_num) (by norm_num) (by norm_num)
    simp only [tabletFit, hmin, h1, h2]
    exact FitResult.ext rfl rfl rfl rfl rfl

/-- C3: the scaled dimensions stay within `targetWidth * fillX` and
`targetHeight * fillY`, and the limiting dimension reaches its bound: for
the feature-graphic variant (integer bounds, fills 1) exactly, for the
tablet variant up to the 1-px integer-truncation tolerance. -/
theorem c3_limiting_dimension (w h tw th : ℤ) (hw : 0 < w) (hh : 0 < h)
    (htw : 0 < tw) (hth : 0 < th) :
    (((featureFit w h tw th).newWidth : ℚ) ≤ (tw : ℚ) * 1 ∧
     ((featureFit w h tw th).newHeight : ℚ) ≤ (th : ℚ) * 1 ∧
     ((featureFit w h tw th).newWidth = tw ∨
      (featureFit w h tw th).newHeight = th)) ∧
    (((tabletFit w h tw th).newWidth : ℚ) ≤ (tw : ℚ) * (8/10) ∧
     ((tabletFit w h tw th).newHeight : ℚ) ≤ (th : ℚ) * (9/10) ∧
     ((tw : ℚ) * (8/10) - 1 < ((tabletFit w h tw th).newWidth : ℚ) ∨
      (th : ℚ) * (9/10) - 1 < ((tabletFit w h tw th).newHeight : ℚ))) := by
  have hfx1 : (0 : ℚ) ≤ (tw : ℚ) * 1 := by
    rw [mul_one]; exact_mod_cast htw.le
  have hfy1 : (0 : ℚ) ≤ (th : ℚ) * 1 := by
    rw [mul_one]; exact_mod_cast hth.le
  have hfx2 : (0 : ℚ) ≤ (tw : ℚ) * (8/10) := by
    have htw' : (0 : ℚ) ≤ (tw : ℚ) := by exact_mod_cast htw.le
    positivity
  have hfy2 : (0 : ℚ) ≤ (th : ℚ) * (9/10) := by
    have hth' : (0 : ℚ) ≤ (th : ℚ) := by exact_mod_cast hth.le
    positivity
  refine ⟨⟨?_, ?_, ?_⟩, ?_, ?_, ?_⟩
  · rw [featureFit_eq_specFit]; exact specFit_newWidth_le hw hh hfx1 hfy1
  · rw [featureFit_eq_specFit]; exact specFit_newHeight_le hw hh hfx1 hfy1
  · rw [featureFit_eq_specFit]
    exact specFit_touch_exact hw hh (mul_one _) (mul_one _)
  · rw [tabletFit_eq_specFit]; exact specFit_newWidth_le hw hh hfx2 hfy2
  · rw [tabletFit_eq_specFit]; exact specFit_newHeight_le hw hh hfx2 hfy2
  · rw [tabletFit_eq_specFit]
    exact specFit_touch hw hh hfx2 hfy2

/-- Witness for C3 at a concrete input. -/
theorem c3_limiting_dimension_witness :
    (((featureFit 2000 1000 1024 500).newWidth : ℚ) ≤ (1024 : ℚ) * 1 ∧
     ((featureFit 2000 1000 1024 500).newHeight : ℚ) ≤ (500 : ℚ) * 1 ∧
     ((featureFit 2000 1000 1024 500).newWidth = 1024 ∨
      (featureFit 2000 1000 1024 500).newHeight = 500)) ∧
    (((tabletFit 2000 1000 1024 500).newWidth : ℚ) ≤ (1024 : ℚ) * (8/10) ∧
     ((tabletFit 2000 1000 1024 500).newHeight : ℚ) ≤ (500 : ℚ) * (9/10) ∧
     ((1024 : ℚ) * (8/10) - 1 < ((tabletFit 2000 1000 1024 500).newWidth : ℚ) ∨
      (500 : ℚ) * (9/10) - 1 <
        ((tabletFit 2000 1000 1024 500).newHeight : ℚ))) :=
  c3_limiting_dimension 2000 1000 1024 500
    (by decide) (by decide) (by decide) (by decide)

/-- C4: the centering offsets are the floor divisions
`(target - scaled) // 2`, and the padding is symmetric up to one pixel:
`offset + scaled + offset` is within 1 of the target, on both axes, for
both variants. -/
theorem c4_centering_offsets (w h tw th : ℤ) (_hw : 0 < w) (_hh : 0 < h) :
    ((featureFit w h tw th).x
        = Int.fdiv (tw - (featureFit w h tw th).newWidth) 2 ∧
     (featureFit w h tw th).y
        = Int.fdiv (th - (featureFit w h tw th).newHeight) 2 ∧
     |tw - ((featureFit w h tw th).x + (featureFit w h tw th).newWidth
        + (featureFit w h tw th).x)| ≤ 1 ∧
     |th - ((featureFit w h tw th).y + (featureFit w h tw th).newHeight
        + (featureFit w h tw th).y)| ≤ 1) ∧
    ((tabletFit w h tw th).x
        = Int.fdiv (tw - (tabletFit w h tw th).newWidth) 2 ∧
     (tabletFit w h tw th).y
        = Int.fdiv (th - (tabletFit w h tw th).newHeight) 2 ∧
     |tw - ((tabletFit w h tw th).x + (tabletFit w h tw th).newWidth
        + (tabletFit w h tw th).x)| ≤ 1 ∧
     |th - ((tabletFit w h tw th).y + (tabletFit w h tw th).newHeight
        + (tabletFit w h tw th).y)| ≤ 1) := by
  have key : ∀ t s : ℤ,
      |t - (Int.fdiv (t - s) 2 + s + Int.fdiv (t - s) 2)| ≤ 1 := by
    intro t s
    rw [Int.fdiv_eq_ediv _ (by decide : (0 : ℤ) ≤ 2), abs_le]
    omega
  exact ⟨⟨rfl, rfl, key tw _, key th _⟩, ⟨rfl, rfl, key tw _, key th _⟩⟩

/-- Witness for C4 at a concrete input. -/
theorem c4_centering_offsets_witness :
    (((featureFit 2000 1000 1024 500).x
        = Int.fdiv (1024 - (featureFit 2000 1000 1024 500).newWidth) 2 ∧
      (featureFit 2000 1000 1024 500).y
        = Int.fdiv (500 - (featureFit 2000 1000 1024 500).newHeight) 2 ∧
      |1024 - ((featureFit 2000 1000 1024 500).x
        + (featureFit 2000 1000 1024 500).newWidth
        + (featureFit 2000 1000 1024 500).x)| ≤ 1 ∧
      |500 - ((featureFit 2000 1000 1024 500).y
        + (featureFit 2000 1000 1024 500).newHeight
        + (featureFit 2000 1000 1024 500).y)| ≤ 1) ∧
     ((tabletFit 2000 1000 1024 500).x
        = Int.fdiv (1024 - (tabletFit 2000 1000 1024 500).newWidth) 2 ∧
      (tabletFit 2000 1000 1024 500).y
        = Int.fdiv (500 - (tabletFit 2000 1000 1024 500).newHeight) 2 ∧
      |1024 - ((tabletFit 2000 1000 1024 500).x
        + (tabletFit 2000 1000 1024 500).newWidth
        + (tabletFit 2000 1000 1024 500).x)| ≤ 1 ∧
      |500 - ((tabletFit 2000 1000 1024 500).y
        + (tabletFit 2000 1000 1024 500).newHeight
        + (tabletFit 2000 1000 1024 500).y)| ≤ 1)) :=
  c4_centering_offsets 2000 1000 1024 500 (by decide) (by decide)

/-- C9: when the source fits strictly inside the fill region
(`w < targetWidth * fillX` and `h < targetHeight * fillY`, stated in the
equivalent integer form for the tablet fills 0.8 and 0.9), the computed
scale is strictly greater than 1 and the source is upscaled; no clamping at
1 takes place. -/
theorem c9_upscaling (w h tw th : ℤ) (hw : 0 < w) (hh : 0 < h) :
    ((w < tw → h < th →
       1 < (featureFit w h tw th).scale ∧
       w ≤ (featureFit w h tw th).newWidth ∧
       h ≤ (featureFit w h tw th).newHeight)) ∧
    ((5 * w < 4 * tw → 10 * h < 9 * th →
       1 < (tabletFit w h tw th).scale ∧
       w ≤ (tabletFit w h tw th).newWidth ∧
       h ≤ (tabletFit w h tw th).newHeight)) := by
  constructor
  · intro h1 h2
    rw [featureFit_eq_specFit]
    refine specFit_upscale hw hh ?_ ?_
    · rw [mul_one]; exact_mod_cast h1
    · rw [mul_one]; exact_mod_cast h2
  · intro h1 h2
    rw [tabletFit_eq_specFit]
    refine specFit_upscale hw hh ?_ ?_
    · have h1' : ((5 : ℚ) * w < 4 * tw) := by exact_mod_cast h1
      linarith
    · have h2' : ((10 : ℚ) * h < 9 * th) := by exact_mod_cast h2
      linarith

/-- Witness for C9 at a concrete input. -/
theorem c9_upscaling_witness :
    (1 < (featureFit 2 2 1024 500).scale ∧
       2 ≤ (featureFit 2 2 1024 500).newWidth ∧
       2 ≤ (featureFit 2 2 1024 500).newHeight) ∧
    (1 < (tabletFit 2 2 1024 500).scale ∧
       2 ≤ (tabletFit 2 2 1024 500).newWidth ∧
       2 ≤ (tabletFit 2 2 1024 500).newHeight) :=
  ⟨(c9_upscaling 2 2 1024 500 (by decide) (by decide)).1
      (by decide) (by decide),
   (c9_upscaling 2 2 1024 500 (by decide) (by decide)).2
      (by decide) (by decide)⟩

/-- C6 counterexample: an already-correctly-sized 1920×1080 input through
the tablet fitter gets scale 4/5, not 1, and offsets (192, 108), not
(0, 0): the fill fractions 0.8/0.9 shrink a target-sized input. -/
theorem c6_counterexample :
    tabletFit 1920 1080 1920 1080 = ⟨4/5, 1536, 864, 192, 108⟩ ∧
      ((4 : ℚ)/5 ≠ 1 ∧ (192 : ℤ) ≠ 0 ∧ (108 : ℤ) ≠ 0) := by
  constructor
  · have hmin : min (((1920 : ℤ) : ℚ) * (8/10) / ((1920 : ℤ) : ℚ))
        (((1080 : ℤ) : ℚ) * (9/10) / ((1080 : ℤ) : ℚ)) = 4/5 := by
      norm_num [min_def]
    have h1 : pyInt (((1920 : ℤ) : ℚ) * (4/5)) = 1536 :=
      pyInt_eq_of (by norm_num) (by norm_num) (by norm_num)
    have h2 : pyInt (((1080 : ℤ) : ℚ) * (4/5)) = 864 :=
      pyInt_eq_of (by norm_num) (by norm_num) (by norm_num)
    simp only [tabletFit, hmin, h1, h2]
    exact FitResult.ext rfl rfl rfl rfl rfl
  · refine ⟨by norm_num, by decide, by decide⟩

/-- C6 amended: for the feature-graphic variant (fill fractions 1), an
input of exactly the target size yields scale 1, scaled dimensions equal to
the target, offsets (0, 0), and every canvas pixel is taken unchanged from
the resized (size-unchanged) image — so the output is pixel-identical to
the input whenever resampling at unchanged size is the identity.  For the
tablet variant a target-sized input is scaled by min(0.8, 0.9) = 4/5, not
1. -/
theorem c6_idempotence_amended (resize : Img → ℤ → ℤ → Img)
    (hres : ∀ i w' h', (resize i w' h').width = w' ∧
      (resize i w' h').height = h')
    (img : Img) (tw th : ℤ) (hw : img.width = tw) (hh : img.height = th)
    (htw : 0 < tw) (hth : 0 < th) :
    featureFit tw th tw th = ⟨1, tw, th, 0, 0⟩ ∧
    (tabletFit tw th tw th).scale = 4/5 ∧
    ∃ out, convert_feature_graphic resize (some img) tw th = .ok out ∧
      out.width = tw ∧ out.height = th ∧
      ∀ a b, 0 ≤ a → a < tw → 0 ≤ b → b < th →
        out.pix a b = (resize img tw th).pix a b := by
  have htw' : ((tw : ℚ)) ≠ 0 := by
    exact_mod_cast htw.ne'
  have hth' : ((th : ℚ)) ≠ 0 := by
    exact_mod_cast hth.ne'
  have hfit : featureFit tw th tw th = ⟨1, tw, th, 0, 0⟩ := by
    have hmin : min ((tw : ℚ) / (tw : ℚ)) ((th : ℚ) / (th : ℚ)) = 1 := by
      rw [div_self htw', div_self hth', min_self]
    simp only [featureFit, hmin, mul_one, pyInt_intCast]
    refine FitResult.ext rfl rfl rfl ?_ ?_
    · show Int.fdiv (tw - tw) 2 = 0
      rw [sub_self]; rfl
    · show Int.fdiv (th - th) 2 = 0
      rw [sub_self]; rfl
  have htab : (tabletFit tw th tw th).scale = 4/5 := by
    show min ((tw : ℚ) * (8/10) / tw) ((th : ℚ) * (9/10) / th) = 4/5
    rw [mul_comm ((tw : ℚ)) (8/10), mul_div_assoc, div_self htw', mul_one,
      mul_comm ((th : ℚ)) (9/10), mul_div_assoc, div_self hth', mul_one]
    norm_num [min_def]
  have hok : convert_feature_graphic resize (some img) tw th =
      .ok (pasteImage (newImage tw th bgColor)
        (resize img (featureFit tw th tw th).newWidth
          (featureFit tw th tw th).newHeight)
        (featureFit tw th tw th).x (featureFit tw th tw th).y) := by
    have h0 := convert_feature_graphic_ok resize img tw th
      (hw ▸ htw) (hh ▸ hth) htw.le hth.le
      (by rw [hw, hh, hfit]; exact htw) (by rw [hw, hh, hfit]; exact hth)
    rw [hw, hh] at h0
    exact h0
  rw [hfit] at hok
  refine ⟨hfit, htab, _, hok, rfl, rfl, ?_⟩
  intro a b ha haw hb hbh
  show (pasteImage (newImage tw th bgColor) (resize img tw th) 0 0).pix a b
      = (resize img tw th).pix a b
  have hrw := (hres img tw th).1
  have hrh := (hres img tw th).2
  simp only [pasteImage]
  rw [if_pos ⟨ha, by rw [hrw]; omega, hb, by rw [hrh]; omega⟩,
    sub_zero, sub_zero]

/-- Witness for the amended C6 at a concrete input. -/
theorem c6_idempotence_witness :
    featureFit 2 3 2 3 = ⟨1, 2, 3, 0, 0⟩ ∧
    (tabletFit 2 3 2 3).scale = 4/5 ∧
    ∃ out, convert_feature_graphic constResize (some (solidImg 2 3)) 2 3
        = .ok out ∧
      out.width = 2 ∧ out.height = 3 ∧
      ∀ a b, 0 ≤ a → a < 2 → 0 ≤ b → b < 3 →
        out.pix a b = (constResize (solidImg 2 3) 2 3).pix a b :=
  c6_idempotence_amended constResize (fun _ _ _ => ⟨rfl, rfl⟩)
    (solidImg 2 3) 2 3 rfl rfl (by decide) (by decide)

/-- C7 counterexample: the conversion on a decodable 4×2 source with the
non-positive target width 0 does fail, but not with any target-dimension
validation: the zero target drives the truncated scaled size to 0 and the
failure is the resize library rejecting a non-positive size — the very
same resize rejection also fires for fully valid positive targets (the
2×20000 source into 1024×500), where the claim asserts no failure, so the
failure on a non-positive target is not an `InvalidSpec` validation and no
such typed error exists. -/
theorem c7_counterexample :
    convert_feature_graphic constResize (some (solidImg 4 2)) 0 500
      = .error .resizeInvalid ∧
    convert_feature_graphic constResize (some (solidImg 2 20000)) 1024 500
      = .error .resizeInvalid := by
  constructor
  · have hfit : featureFit 4 2 0 500 = ⟨0, 0, 0, 0, 250⟩ := by
      have hmin : min (((0 : ℤ) : ℚ) / ((4 : ℤ) : ℚ))
          (((500 : ℤ) : ℚ) / ((2 : ℤ) : ℚ)) = 0 := by
        norm_num [min_def]
      have h1 : pyInt (((4 : ℤ) : ℚ) * 0) = 0 := by
        rw [mul_zero]; rfl
      have h2 : pyInt (((2 : ℤ) : ℚ) * 0) = 0 := by
        rw [mul_zero]; rfl
      simp only [featureFit, hmin, h1, h2]
      exact FitResult.ext rfl rfl rfl rfl rfl
    exact convert_feature_graphic_resize_rejects constResize (solidImg 4 2)
      0 500 (by decide) (by decide) (by decide) (by decide)
      (Or.inl (by show (featureFit 4 2 0 500).newWidth < 1
                  rw [hfit]; decide))
  · have hfit : featureFit 2 20000 1024 500 = ⟨1/40, 0, 500, 512, 0⟩ := by
      have hmin : min (((1024 : ℤ) : ℚ) / ((2 : ℤ) : ℚ))
          (((500 : ℤ) : ℚ) / ((20000 : ℤ) : ℚ)) = 1/40 := by
        norm_num [min_def]
      have h1 : pyInt (((2 : ℤ) : ℚ) * (1/40)) = 0 :=
        pyInt_eq_of (by norm_num) (by norm_num) (by norm_num)
      have h2 : pyInt (((20000 : ℤ) : ℚ) * (1/40)) = 500 :=
        pyInt_eq_of (by norm_num) (by norm_num) (by norm_num)
      simp only [featureFit, hmin, h1, h2]
      exact FitResult.ext rfl rfl rfl rfl rfl
    exact convert_feature_graphic_resize_rejects constResize (solidImg 2 20000)
      1024 500 (by decide) (by decide) (by decide) (by decide)
      (Or.inl (by show (featureFit 2 20000 1024 500).newWidth < 1
                  rw [hfit]; decide))

/-- C7 amended: the conversion does fail in every circumstance the claim
lists, but with untyped raises instead of an `InvalidInput`/`InvalidSpec`
taxonomy: an undecodable source propagates the open exception; a zero-area
source raises ZeroDivisionError in the scale computation (for nonnegative
targets); a negative target dimension is rejected by the canvas
constructor; and a zero target dimension drives the truncated scaled size
to 0, so the resize call rejects it — the same resize rejection that also
fires for valid positive targets at extreme aspect ratios, hence not a
target-dimension validation. -/
theorem c7_error_model_amended (resize : Img → ℤ → ℤ → Img) (img : Img)
    (tw th : ℤ) :
    (convert_feature_graphic resize none tw th = .error .decodeFailure ∧
     create_tablet_screenshot resize none tw th = .error .decodeFailure) ∧
    (0 ≤ tw → 0 ≤ th → (img.width = 0 ∨ img.height = 0) →
      convert_feature_graphic resize (some img) tw th
          = .error .zeroDivision ∧
      create_tablet_screenshot resize (some img) tw th
          = .error .zeroDivision) ∧
    ((tw < 0 ∨ th < 0) →
      convert_feature_graphic resize (some img) tw th = .error .newInvalid ∧
      create_tablet_screenshot resize (some img) tw th
          = .error .newInvalid) ∧
    ((tw = 0 ∨ th = 0) → 0 ≤ tw → 0 ≤ th →
      0 < img.width → 0 < img.height →
      convert_feature_graphic resize (some img) tw th
          = .error .resizeInvalid ∧
      create_tablet_screenshot resize (some img) tw th
          = .error .resizeInvalid) := by
  refine ⟨⟨rfl, rfl⟩, ?_, ?_, ?_⟩
  · intro htw hth h0
    constructor
    · simp only [convert_feature_graphic]
      rw [if_neg (by omega), if_pos h0]
    · simp only [create_tablet_screenshot]
      rw [if_neg (by omega), if_pos h0]
  · intro hneg
    constructor
    · simp only [convert_feature_graphic]
      rw [if_pos hneg]
    · simp only [create_tablet_screenshot]
      rw [if_pos hneg]
  · intro h0 htw hth hw hh
    have hfx1 : (0 : ℚ) ≤ (tw : ℚ) * 1 := by
      rw [mul_one]; exact_mod_cast htw
    have hfy1 : (0 : ℚ) ≤ (th : ℚ) * 1 := by
      rw [mul_one]; exact_mod_cast hth
    have hfx2 : (0 : ℚ) ≤ (tw : ℚ) * (8/10) := by
      have htw' : (0 : ℚ) ≤ (tw : ℚ) := by exact_mod_cast htw
      positivity
    have hfy2 : (0 : ℚ) ≤ (th : ℚ) * (9/10) := by
      have hth' : (0 : ℚ) ≤ (th : ℚ) := by exact_mod_cast hth
      positivity
    have h0q1 : (tw : ℚ) * 1 = 0 ∨ (th : ℚ) * 1 = 0 := by
      rcases h0 with h | h
      · left; rw [h]; norm_num
      · right; rw [h]; norm_num
    have h0q2 : (tw : ℚ) * (8/10) = 0 ∨ (th : ℚ) * (9/10) = 0 := by
      rcases h0 with h | h
      · left; rw [h]; norm_num
      · right; rw [h]; norm_num
    have hz1 : (featureFit img.width img.height tw th).newWidth = 0 := by
      rw [featureFit_eq_specFit]
      exact specFit_newWidth_zero hw hh hfx1 hfy1 h0q1
    have hz2 : (tabletFit img.width img.height tw th).newWidth = 0 := by
      rw [tabletFit_eq_specFit]
      exact specFit_newWidth_zero hw hh hfx2 hfy2 h0q2
    exact ⟨convert_feature_graphic_resize_rejects resize img tw th hw hh
        htw hth (Or.inl (by omega)),
      create_tablet_screenshot_resize_rejects resize img tw th hw hh
        htw hth (Or.inl (by omega))⟩

/-- Witness for the amended C7 at a concrete input: a 3×7 source with the
zero target height fails at the resize call in both variants. -/
theorem c7_error_model_witness :
    convert_feature_graphic constResize (some (solidImg 3 7)) 100 0
        = .error .resizeInvalid ∧
    create_tablet_screenshot constResize (some (solidImg 3 7)) 100 0
        = .error .resizeInvalid :=
  (c7_error_model_amended constResize (solidImg 3 7) 100 0).2.2.2
    (Or.inr rfl) (by decide) (by decide) (by decide) (by decide)

/-- C10: an extreme 1×10000 source fitted into the 1024×500 canvas gets
scale 1/20, whose truncated scaled width is int(1 * 1/20) = 0; the script
itself has no guard against this, so the resize call is reached with the
zero width — where the imaging library rejects the non-positive size and
the conversion fails (`resizeInvalid` marks the raise inside that call). -/
theorem c10_zero_scaled_dimension :
    featureFit 1 10000 1024 500 = ⟨1/20, 0, 500, 512, 0⟩ ∧
    convert_feature_graphic constResize (some (solidImg 1 10000)) 1024 500
      = .error .resizeInvalid := by
  have hmin : min (((1024 : ℤ) : ℚ) / ((1 : ℤ) : ℚ))
      (((500 : ℤ) : ℚ) / ((10000 : ℤ) : ℚ)) = 1/20 := by
    norm_num [min_def]
  have h1 : pyInt (((1 : ℤ) : ℚ) * (1/20)) = 0 :=
    pyInt_eq_of (by norm_num) (by norm_num) (by norm_num)
  have h2 : pyInt (((10000 : ℤ) : ℚ) * (1/20)) = 500 :=
    pyInt_eq_of (by norm_num) (by norm_num) (by norm_num)
  have hfit : featureFit 1 10000 1024 500 = ⟨1/20, 0, 500, 512, 0⟩ := by
    simp only [featureFit, hmin, h1, h2]
    exact FitResult.ext rfl rfl rfl rfl rfl
  refine ⟨hfit, ?_⟩
  exact convert_feature_graphic_resize_rejects constResize (solidImg 1 10000)
    1024 500 (by decide) (by decide) (by decide) (by decide)
    (Or.inl (by show (featureFit 1 10000 1024 500).newWidth < 1
                rw [hfit]; decide))

/-- C5: the batch runner attempts exactly the files whose (lower-cased)
name ends in a known image extension — each such file contributes one
written output or one logged error, so a per-file failure never aborts the
rest — and on the concrete folder with decodable `a.png`, corrupt `b.png`
and decodable `c.jpg` it writes the two outputs `tablet_a.png` and
`tablet_c.png` and logs the single error for `b.png`. -/
theorem c5_batch_error_isolation (resize : Img → ℤ → ℤ → Img)
    (files : List FileEntry) :
    ((process_screenshots resize files).1.length
        + (process_screenshots resize files).2.length
      = (files.filter fun f => hasImageExtension f.name).length) ∧
    ((process_screenshots constResize [fileA, fileB, fileC]).1.map Prod.fst
        = [outputName fileA.name, outputName fileC.name] ∧
     (process_screenshots constResize [fileA, fileB, fileC]).2
        = [fileB.name]) := by
  constructor
  · induction files with
    | nil => rfl
    | cons f rest ih =>
      cases hext : hasImageExtension f.name with
      | true =>
        cases hcv : create_tablet_screenshot resize f.source 1920 1080 with
        | ok out =>
          simp only [process_screenshots, hext, hcv, List.filter_cons,
            if_true, List.length_cons]
          omega
        | error e =>
          simp only [process_screenshots, hext, hcv, List.filter_cons,
            if_true, List.length_cons]
          omega
      | false =>
        simp only [process_screenshots, hext, List.filter_cons]
        simpa using ih
  · have hA := create_tablet_screenshot_ok constResize (solidImg 4 2) 1920
      1080 (by decide) (by decide) (by decide) (by decide)
      (by simp [solidImg, tabletFit_small]) (by simp [solidImg, tabletFit_small])
    have hB : create_tablet_screenshot constResize none 1920 1080
        = .error .decodeFailure := rfl
    have e1 : hasImageExtension ['a', '.', 'p', 'n', 'g'] = true := by decide
    have e2 : hasImageExtension ['b', '.', 'p', 'n', 'g'] = true := by decide
    have e3 : hasImageExtension ['c', '.', 'j', 'p', 'g'] = true := by decide
    simp only [process_screenshots, fileA, fileB, fileC]
    rw [hA, hB]
    simp only [e1, e2, e3, if_true, List.map_cons, List.map_nil]
    exact ⟨by decide, by decide⟩

end FitAI
